import Mathlib

/-!
Verification development for the session/authentication lifecycle of the
blog platform: token issuance and verification (`SessionManager` in the
server middleware), the in-memory revocation registry, the login lockout
logic of `POST /api/auth/login` in `server.js`, and the browser-side
session mirror of `scripts/auth-manager.js`.

Modelling conventions:
* Times are `Nat`: millisecond epoch timestamps (`Date.now()`) where the
  source works in milliseconds, second timestamps where the JWT library
  works in seconds (`Math.floor(Date.now() / 1000)`).
* The `jsonwebtoken` library (an external dependency, not part of the
  repository) is modelled symbolically: a token is the serialized payload
  followed by `'.'` and an ideal message-authentication tag.  The ideal
  tag is collision-free by construction, which models the
  collision-resistance assumed of HMAC-SHA256; everything else
  (issuer/audience/expiry checking, error taxonomy) follows the library's
  documented semantics.
* Side effects (database updates, `console.warn` lines) are made explicit:
  state is passed and returned, log lines are returned as data.
-/

namespace BlogAuth

/-- Request context: the fields of the Express `req` object that the
authentication code reads (`req.ip` and the `User-Agent` header, which is
absent on some requests). -/
structure Req where
  ip : String
  userAgent : Option String
deriving Repr, DecidableEq

/-! ### Hexadecimal wire encoding

The serialized token is modelled over the alphabet `0-9a-f` plus the two
separators `'_'` (between payload fields) and `'.'` (between payload and
signature), mirroring the shape of a JWT (`base64url` segments joined by
dots).  The encoding is executable and injective, with an executable
decoder. -/

/-- Hex digit character for a value below 16 (`0-9` then `a-f`). -/
def hexDigit (n : Nat) : Char :=
  if n < 10 then Char.ofNat (48 + n) else Char.ofNat (87 + n)

/-- Inverse of `hexDigit`: value of a hex digit character, if any. -/
def hexVal (c : Char) : Option Nat :=
  if 48 ≤ c.toNat ∧ c.toNat ≤ 57 then some (c.toNat - 48)
  else if 97 ≤ c.toNat ∧ c.toNat ≤ 102 then some (c.toNat - 87)
  else none

theorem hexVal_hexDigit : ∀ d, d < 16 → hexVal (hexDigit d) = some d := by decide

theorem hexDigit_ne_dot : ∀ d, d < 16 → hexDigit d ≠ '.' := by decide

theorem hexDigit_ne_underscore : ∀ d, d < 16 → hexDigit d ≠ '_' := by decide

/-- Fixed-width (6 hex digits) encoding of one character's code point. -/
def encodeChar (c : Char) : List Char :=
  let n := c.toNat
  [hexDigit (n / 1048576 % 16), hexDigit (n / 65536 % 16),
   hexDigit (n / 4096 % 16), hexDigit (n / 256 % 16),
   hexDigit (n / 16 % 16), hexDigit (n % 16)]

/-- Decode six hex digit characters back into one character. -/
def hex6 (a b c d e f : Char) : Option Char :=
  match hexVal a, hexVal b, hexVal c, hexVal d, hexVal e, hexVal f with
  | some va, some vb, some vc, some vd, some ve, some vf =>
      some (Char.ofNat (((((va * 16 + vb) * 16 + vc) * 16 + vd) * 16 + ve) * 16 + vf))
  | _, _, _, _, _, _ => none

/-- Encode a character list, six hex digits per character. -/
def encChars : List Char → List Char
  | [] => []
  | c :: cs => encodeChar c ++ encChars cs

/-- Decode a hex character list produced by `encChars`. -/
def decChars : List Char → Option (List Char)
  | [] => some []
  | a :: b :: c :: d :: e :: f :: rest =>
      match hex6 a b c d e f with
      | some ch => (decChars rest).map (fun cs => ch :: cs)
      | none => none
  | _ => none

theorem char_toNat_lt (c : Char) : c.toNat < 16777216 := by
  have h := c.valid
  have hv : c.toNat = c.val.toNat := rfl
  rcases h with h | ⟨h1, h2⟩ <;> omega

theorem hex6_encodeChar (c : Char) :
    hex6 (hexDigit (c.toNat / 1048576 % 16)) (hexDigit (c.toNat / 65536 % 16))
      (hexDigit (c.toNat / 4096 % 16)) (hexDigit (c.toNat / 256 % 16))
      (hexDigit (c.toNat / 16 % 16)) (hexDigit (c.toNat % 16)) = some c := by
  have hb := char_toNat_lt c
  unfold hex6
  rw [hexVal_hexDigit _ (Nat.mod_lt _ (by norm_num)),
      hexVal_hexDigit _ (Nat.mod_lt _ (by norm_num)),
      hexVal_hexDigit _ (Nat.mod_lt _ (by norm_num)),
      hexVal_hexDigit _ (Nat.mod_lt _ (by norm_num)),
      hexVal_hexDigit _ (Nat.mod_lt _ (by norm_num)),
      hexVal_hexDigit _ (Nat.mod_lt _ (by norm_num))]
  have harith :
      ((((c.toNat / 1048576 % 16 * 16 + c.toNat / 65536 % 16) * 16
        + c.toNat / 4096 % 16) * 16 + c.toNat / 256 % 16) * 16
        + c.toNat / 16 % 16) * 16 + c.toNat % 16 = c.toNat := by
    omega
  simp only [harith, Char.ofNat_toNat]

theorem decChars_encChars (l : List Char) : decChars (encChars l) = some l := by
  induction l with
  | nil => rfl
  | cons c cs ih =>
      show decChars (encodeChar c ++ encChars cs) = some (c :: cs)
      simp only [encodeChar, List.cons_append, List.nil_append]
      show (match hex6 _ _ _ _ _ _ with
            | some ch => (decChars (encChars cs)).map (fun cs => ch :: cs)
            | none => none) = some (c :: cs)
      rw [hex6_encodeChar c, ih]
      rfl

theorem mem_encodeChar (x : Char) (c : Char) (h : x ∈ encodeChar c) :
    ∃ d, d < 16 ∧ x = hexDigit d := by
  simp only [encodeChar, List.mem_cons, List.not_mem_nil, or_false] at h
  rcases h with h | h | h | h | h | h <;>
    exact ⟨_, Nat.mod_lt _ (by norm_num), h⟩

theorem mem_encChars (x : Char) (l : List Char) (h : x ∈ encChars l) :
    ∃ d, d < 16 ∧ x = hexDigit d := by
  induction l with
  | nil => simp [encChars] at h
  | cons c cs ih =>
      simp only [encChars, List.mem_append] at h
      rcases h with h | h
      · exact mem_encodeChar x c h
      · exact ih h

/-! ### Variable-width hex encoding of natural numbers -/

/-- Hex digits of `n`, most significant first; `fuel` bounds recursion depth. -/
def natHexAux : Nat → Nat → List Char
  | 0, _ => []
  | fuel + 1, n =>
      if n < 16 then [hexDigit n]
      else natHexAux fuel (n / 16) ++ [hexDigit (n % 16)]

/-- Hex representation of a natural number (always nonempty). -/
def natHex (n : Nat) : List Char := natHexAux (n + 1) n

/-- Accumulating hex parser. -/
def hexToNatAux (acc : Nat) : List Char → Option Nat
  | [] => some acc
  | c :: cs =>
      match hexVal c with
      | some v => hexToNatAux (acc * 16 + v) cs
      | none => none

/-- Parse a nonempty hex digit string. -/
def hexToNat (l : List Char) : Option Nat :=
  match l with
  | [] => none
  | _ => hexToNatAux 0 l

theorem hexToNatAux_append (acc : Nat) (l1 l2 : List Char) :
    hexToNatAux acc (l1 ++ l2) =
      (hexToNatAux acc l1).bind (fun m => hexToNatAux m l2) := by
  induction l1 generalizing acc with
  | nil => rfl
  | cons c cs ih =>
      simp only [List.cons_append, hexToNatAux]
      cases hexVal c with
      | none => rfl
      | some v => exact ih _

theorem hexToNatAux_natHexAux (fuel : Nat) :
    ∀ n acc, n < fuel →
      hexToNatAux acc (natHexAux fuel n) =
        some (acc * 16 ^ (natHexAux fuel n).length + n) := by
  induction fuel with
  | zero => intro n acc h; omega
  | succ fuel ih =>
      intro n acc _
      by_cases hn : n < 16
      · simp only [natHexAux, if_pos hn, hexToNatAux, hexVal_hexDigit n hn,
          List.length_singleton]
        norm_num
      · have hdiv : n / 16 < fuel := by
          have h1 : n / 16 < n := Nat.div_lt_self (by omega) (by norm_num)
          omega
        simp only [natHexAux, if_neg hn, hexToNatAux_append,
          ih (n / 16) acc hdiv, hexToNatAux,
          hexVal_hexDigit (n % 16) (Nat.mod_lt _ (by norm_num)),
          List.length_append, List.length_singleton, Option.some_bind]
        have hsplit : (acc * 16 ^ (natHexAux fuel (n / 16)).length + n / 16) * 16 + n % 16
            = acc * (16 ^ (natHexAux fuel (n / 16)).length * 16) + (16 * (n / 16) + n % 16) := by
          ring
        rw [pow_succ, hsplit, Nat.div_add_mod n 16]

theorem natHex_ne_nil (n : Nat) : natHex n ≠ [] := by
  unfold natHex natHexAux
  by_cases hn : n < 16
  · simp [hn]
  · simp [hn]

theorem hexToNat_natHex (n : Nat) : hexToNat (natHex n) = some n := by
  have h := hexToNatAux_natHexAux (n + 1) n 0 (Nat.lt_succ_self n)
  unfold hexToNat
  rcases hh : natHex n with _ | ⟨c, cs⟩
  · exact absurd hh (natHex_ne_nil n)
  · show hexToNatAux 0 (c :: cs) = some n
    rw [← hh]
    show hexToNatAux 0 (natHexAux (n + 1) n) = some n
    unfold natHex at h
    rw [h]
    simp

theorem mem_natHexAux (x : Char) (fuel n : Nat) (h : x ∈ natHexAux fuel n) :
    ∃ d, d < 16 ∧ x = hexDigit d := by
  induction fuel generalizing n with
  | zero => simp [natHexAux] at h
  | succ fuel ih =>
      unfold natHexAux at h
      by_cases hn : n < 16
      · simp only [if_pos hn, List.mem_singleton] at h
        exact ⟨n, hn, h⟩
      · simp only [if_neg hn, List.mem_append, List.mem_singleton] at h
        rcases h with h | h
        · exact ih _ h
        · exact ⟨n % 16, Nat.mod_lt _ (by norm_num), h⟩

theorem mem_natHex (x : Char) (n : Nat) (h : x ∈ natHex n) :
    ∃ d, d < 16 ∧ x = hexDigit d :=
  mem_natHexAux x (n + 1) n h

/-! ### Separator-based splitting -/

/-- Split a character list at every occurrence of `sep`. -/
def splitSep (sep : Char) : List Char → List (List Char)
  | [] => [[]]
  | c :: cs =>
      if c = sep then [] :: splitSep sep cs
      else
        match splitSep sep cs with
        | [] => [[c]]
        | f :: rest => (c :: f) :: rest

/-- Split a character list at the first occurrence of `sep`, if any. -/
def splitFirst (sep : Char) : List Char → Option (List Char × List Char)
  | [] => none
  | c :: cs =>
      if c = sep then some ([], cs)
      else (splitFirst sep cs).map (fun p => (c :: p.1, p.2))

theorem splitSep_single (sep : Char) (u : List Char) (h : sep ∉ u) :
    splitSep sep u = [u] := by
  induction u with
  | nil => rfl
  | cons c cs ih =>
      simp only [List.mem_cons, not_or] at h
      unfold splitSep
      rw [if_neg (fun hc => h.1 hc.symm), ih h.2]

theorem splitSep_append (sep : Char) (u rest : List Char) (h : sep ∉ u) :
    splitSep sep (u ++ sep :: rest) = u :: splitSep sep rest := by
  induction u with
  | nil => simp [splitSep]
  | cons c cs ih =>
      simp only [List.mem_cons, not_or] at h
      simp only [List.cons_append, splitSep, List.append_eq]
      rw [if_neg (fun hc => h.1 hc.symm), ih h.2]

theorem splitFirst_append (sep : Char) (u v : List Char) (h : sep ∉ u) :
    splitFirst sep (u ++ sep :: v) = some (u, v) := by
  induction u with
  | nil => simp [splitFirst]
  | cons c cs ih =>
      simp only [List.mem_cons, not_or] at h
      simp only [List.cons_append]
      unfold splitFirst
      rw [if_neg (fun hc => h.1 hc.symm), ih h.2]
      rfl

theorem splitFirst_of_not_mem (sep : Char) (l : List Char) (h : sep ∉ l) :
    splitFirst sep l = none := by
  induction l with
  | nil => rfl
  | cons c cs ih =>
      simp only [List.mem_cons, not_or] at h
      unfold splitFirst
      rw [if_neg (fun hc => h.1 hc.symm), ih h.2]
      rfl

/-! ### Token payload

Claims carried by a token, mirroring `SessionManager.generateToken`: the
identity fields copied from the user row, the issuance-time security
claims (`ip`, truncated `userAgent`), and the fields the `jsonwebtoken`
library adds from its sign options (`exp` from `expiresIn: '30m'`, the
static `issuer`/`audience` tags). -/
structure Payload where
  id : Nat
  username : String
  role : String
  iat : Nat
  ip : String
  userAgent : String
  exp : Nat
  iss : String
  aud : String
deriving Repr, DecidableEq

/-- Encode a string field of the payload. -/
def encStr (s : String) : List Char := encChars s.data

/-- Decode a string field of the payload. -/
def decStr (l : List Char) : Option String := (decChars l).map String.mk

theorem decStr_encStr (s : String) : decStr (encStr s) = some s := by
  rcases s with ⟨data⟩
  simp [decStr, encStr, decChars_encChars]

theorem mem_encStr (x : Char) (s : String) (h : x ∈ encStr s) :
    ∃ d, d < 16 ∧ x = hexDigit d :=
  mem_encChars x s.data h

/-- Serialized payload: the nine claim fields, hex-encoded and joined by
`'_'` (the model's analogue of the JSON claims object). -/
def encPayload (p : Payload) : List Char :=
  natHex p.id ++ '_' :: (encStr p.username ++ '_' :: (encStr p.role ++ '_' ::
    (natHex p.iat ++ '_' :: (encStr p.ip ++ '_' :: (encStr p.userAgent ++ '_' ::
      (natHex p.exp ++ '_' :: (encStr p.iss ++ '_' :: encStr p.aud)))))))

/-- Parse a serialized payload. -/
def decPayload (l : List Char) : Option Payload :=
  match splitSep '_' l with
  | [x1, x2, x3, x4, x5, x6, x7, x8, x9] =>
      match hexToNat x1, decStr x2, decStr x3, hexToNat x4, decStr x5,
            decStr x6, hexToNat x7, decStr x8, decStr x9 with
      | some i, some un, some rl, some ia, some ipf, some ua, some ex, some isf, some auf =>
          some ⟨i, un, rl, ia, ipf, ua, ex, isf, auf⟩
      | _, _, _, _, _, _, _, _, _ => none
  | _ => none

theorem mem_encPayload (x : Char) (p : Payload) (h : x ∈ encPayload p) :
    x = '_' ∨ ∃ d, d < 16 ∧ x = hexDigit d := by
  unfold encPayload at h
  simp only [List.mem_append, List.mem_cons] at h
  rcases h with h | h | h | h | h | h | h | h | h | h | h | h | h | h | h | h | h
  · exact Or.inr (mem_natHex x _ h)
  · exact Or.inl h
  · exact Or.inr (mem_encStr x _ h)
  · exact Or.inl h
  · exact Or.inr (mem_encStr x _ h)
  · exact Or.inl h
  · exact Or.inr (mem_natHex x _ h)
  · exact Or.inl h
  · exact Or.inr (mem_encStr x _ h)
  · exact Or.inl h
  · exact Or.inr (mem_encStr x _ h)
  · exact Or.inl h
  · exact Or.inr (mem_natHex x _ h)
  · exact Or.inl h
  · exact Or.inr (mem_encStr x _ h)
  · exact Or.inl h
  · exact Or.inr (mem_encStr x _ h)

theorem not_underscore_mem_natHex (n : Nat) : '_' ∉ natHex n := by
  intro h
  obtain ⟨d, hd, he⟩ := mem_natHex _ n h
  exact hexDigit_ne_underscore d hd he.symm

theorem not_underscore_mem_encStr (s : String) : '_' ∉ encStr s := by
  intro h
  obtain ⟨d, hd, he⟩ := mem_encStr _ s h
  exact hexDigit_ne_underscore d hd he.symm

theorem not_dot_mem_encPayload (p : Payload) : '.' ∉ encPayload p := by
  intro h
  rcases mem_encPayload '.' p h with h | ⟨d, hd, he⟩
  · exact absurd h (by decide)
  · exact hexDigit_ne_dot d hd he.symm

theorem not_dot_mem_encStr (s : String) : '.' ∉ encStr s := by
  intro h
  obtain ⟨d, hd, he⟩ := mem_encStr _ s h
  exact hexDigit_ne_dot d hd he.symm

theorem decPayload_encPayload (p : Payload) : decPayload (encPayload p) = some p := by
  unfold decPayload encPayload
  rw [splitSep_append '_' _ _ (not_underscore_mem_natHex p.id),
      splitSep_append '_' _ _ (not_underscore_mem_encStr p.username),
      splitSep_append '_' _ _ (not_underscore_mem_encStr p.role),
      splitSep_append '_' _ _ (not_underscore_mem_natHex p.iat),
      splitSep_append '_' _ _ (not_underscore_mem_encStr p.ip),
      splitSep_append '_' _ _ (not_underscore_mem_encStr p.userAgent),
      splitSep_append '_' _ _ (not_underscore_mem_natHex p.exp),
      splitSep_append '_' _ _ (not_underscore_mem_encStr p.iss),
      splitSep_single '_' _ (not_underscore_mem_encStr p.aud)]
  simp only [hexToNat_natHex, decStr_encStr]

/-! ### Token signing and verification (model of the `jsonwebtoken` library)

A signed token is `payload ++ '.' ++ tag`, where the tag is an ideal
message-authentication code over the payload: the encoded secret followed
by a full copy of the encoded payload.  The tag therefore determines both
the secret and the payload exactly, which is the symbolic idealization of
HMAC-SHA256's unforgeability/collision-resistance.  `jwtVerify` mirrors
`jwt.verify`'s documented checks and error taxonomy: parse, signature,
expiry (`TokenExpiredError` when the clock timestamp has reached `exp`),
audience, issuer. -/

/-- Model of `jwt.sign(payload, secret, ...)`: serialized payload, the
`'.'` separator, and the ideal authentication tag. -/
def signToken (secret : String) (p : Payload) : List Char :=
  encPayload p ++ '.' :: (encStr secret ++ encPayload p)

/-- Model of `jwt.verify(token, secret, issuer, audience)` at clock
timestamp `now` (seconds). -/
def jwtVerify (secret : String) (token : List Char) (now : Nat) : Except String Payload :=
  match splitFirst '.' token with
  | none => .error "jwt malformed"
  | some (a, b) =>
      if b = encStr secret ++ a then
        match decPayload a with
        | none => .error "jwt malformed"
        | some p =>
            if p.exp ≤ now then .error "jwt expired"
            else if p.aud ≠ "blog-users" then .error "jwt audience invalid"
            else if p.iss ≠ "blog-system" then .error "jwt issuer invalid"
            else .ok p
      else .error "invalid signature"

/-- Model of `SessionManager.verifyToken(token, req)`.  The first
component is the returned claims or the thrown error (the catch block
rethrows every cause as `Token validation failed: ...`); the second
component is the list of advisory `console.warn` lines, which is the only
place the request's IP is consulted (`STRICT_IP_CHECK` is the
`strictIpCheck` flag). -/
def verifyToken (secret : String) (strictIpCheck : Bool) (blacklist : List (List Char))
    (token : List Char) (req : Req) (now : Nat) : Except String Payload × List String :=
  match jwtVerify secret token now with
  | .error msg => (.error ("Token validation failed: " ++ msg), [])
  | .ok decoded =>
      if token ∈ blacklist then
        (.error "Token validation failed: Token has been revoked", [])
      else if strictIpCheck = true ∧ decoded.ip ≠ req.ip then
        (.ok decoded,
         ["IP mismatch for user " ++ decoded.username ++ ": "
            ++ decoded.ip ++ " vs " ++ req.ip])
      else (.ok decoded, [])

/-- `true` exactly when verification returned claims rather than throwing. -/
def isOk (r : Except String Payload) : Bool :=
  match r with
  | .ok _ => true
  | .error _ => false

/-! ### Revocation registry (`tokenBlacklist`)

The source keeps a JS `Set` of token strings.  It is modelled as a list
with set semantics: `revokeToken` (i.e. `Set.add`) inserts only when the
token is absent, so the list stays duplicate-free and its length is the
set's `size`.  `revokeToken` is total: revoking an already-present token
is a no-op, never an error. -/

/-- Model of `SessionManager.revokeToken` (`this.tokenBlacklist.add(token)`). -/
def revokeToken (blacklist : List (List Char)) (token : List Char) : List (List Char) :=
  if token ∈ blacklist then blacklist else token :: blacklist

/-- Model of `SessionManager.cleanupBlacklist`: when the registry's size
exceeds 1000, the entire set is cleared. -/
def cleanupBlacklist (blacklist : List (List Char)) : List (List Char) :=
  if blacklist.length > 1000 then [] else blacklist

/-- Revoke a sequence of tokens in order (repeated logout calls). -/
def revokeAll (blacklist : List (List Char)) (tokens : List (List Char)) : List (List Char) :=
  tokens.foldl revokeToken blacklist

/-! ### User rows and token issuance -/

/-- Row of the `users` table as read by the login handler
(`SELECT id, username, password_hash, role, login_attempts, locked_until`).
`locked_until` is a nullable timestamp, modelled in epoch milliseconds. -/
structure DbUser where
  id : Nat
  username : String
  password_hash : String
  role : String
  login_attempts : Nat
  locked_until : Option Nat
deriving Repr, DecidableEq

/-- Claims assembled by `SessionManager.generateToken`: identity from the
user row, `iat = Math.floor(Date.now() / 1000)`, the request's IP, the
`User-Agent` truncated to 100 characters (`'unknown'` when the header is
missing or empty), `exp` = `iat` + 30 minutes from `expiresIn: '30m'`, and
the static issuer/audience tags. -/
def mkPayload (user : DbUser) (req : Req) (nowMs : Nat) : Payload :=
  let iat := nowMs / 1000
  { id := user.id
    username := user.username
    role := user.role
    iat := iat
    ip := req.ip
    userAgent :=
      match req.userAgent with
      | none => "unknown"
      | some ua => if ua.take 100 = "" then "unknown" else ua.take 100
    exp := iat + 1800
    iss := "blog-system"
    aud := "blog-users" }

/-- Model of `SessionManager.generateToken(user, req)` called at
`Date.now() = nowMs`. -/
def generateToken (secret : String) (user : DbUser) (req : Req) (nowMs : Nat) : List Char :=
  signToken secret (mkPayload user req nowMs)

/-! ### Verification lemmas for well-formed tokens -/

theorem not_dot_mem_tag (secret : String) (p : Payload) :
    '.' ∉ encStr secret ++ encPayload p := by
  intro h
  rcases List.mem_append.mp h with h | h
  · exact not_dot_mem_encStr secret h
  · exact not_dot_mem_encPayload p h

theorem jwtVerify_signToken_ok (secret : String) (p : Payload) (now : Nat)
    (hexp : now < p.exp) (haud : p.aud = "blog-users") (hiss : p.iss = "blog-system") :
    jwtVerify secret (signToken secret p) now = .ok p := by
  unfold jwtVerify signToken
  rw [splitFirst_append '.' _ _ (not_dot_mem_encPayload p)]
  simp [decPayload_encPayload, haud, hiss, Nat.not_le.mpr hexp]

theorem jwtVerify_signToken_expired (secret : String) (p : Payload) (now : Nat)
    (hexp : p.exp ≤ now) :
    jwtVerify secret (signToken secret p) now = .error "jwt expired" := by
  unfold jwtVerify signToken
  rw [splitFirst_append '.' _ _ (not_dot_mem_encPayload p)]
  simp [decPayload_encPayload, hexp]

theorem verifyToken_fst_ok (secret : String) (strict : Bool) (bl : List (List Char))
    (p : Payload) (req : Req) (now : Nat)
    (hexp : now < p.exp) (haud : p.aud = "blog-users") (hiss : p.iss = "blog-system")
    (hbl : signToken secret p ∉ bl) :
    (verifyToken secret strict bl (signToken secret p) req now).fst = .ok p := by
  unfold verifyToken
  rw [jwtVerify_signToken_ok secret p now hexp haud hiss]
  simp only [if_neg hbl]
  by_cases hip : strict = true ∧ p.ip ≠ req.ip
  · rw [if_pos hip]
  · rw [if_neg hip]

theorem verifyToken_fst_revoked (secret : String) (strict : Bool) (bl : List (List Char))
    (p : Payload) (req : Req) (now : Nat)
    (hexp : now < p.exp) (haud : p.aud = "blog-users") (hiss : p.iss = "blog-system")
    (hbl : signToken secret p ∈ bl) :
    (verifyToken secret strict bl (signToken secret p) req now).fst
      = .error "Token validation failed: Token has been revoked" := by
  unfold verifyToken
  rw [jwtVerify_signToken_ok secret p now hexp haud hiss]
  simp only [if_pos hbl]

theorem verifyToken_fst_expired (secret : String) (strict : Bool) (bl : List (List Char))
    (p : Payload) (req : Req) (now : Nat) (hexp : p.exp ≤ now) :
    (verifyToken secret strict bl (signToken secret p) req now).fst
      = .error "Token validation failed: jwt expired" := by
  unfold verifyToken
  rw [jwtVerify_signToken_expired secret p now hexp]
  rfl

/-! ### Revocation registry lemmas -/

theorem mem_revokeToken (bl : List (List Char)) (t x : List Char) :
    x ∈ revokeToken bl t ↔ x = t ∨ x ∈ bl := by
  unfold revokeToken
  by_cases h : t ∈ bl
  · rw [if_pos h]
    constructor
    · exact Or.inr
    · rintro (rfl | hx)
      · exact h
      · exact hx
  · rw [if_neg h]
    exact List.mem_cons

theorem mem_revokeAll (bl : List (List Char)) (ts : List (List Char)) (x : List Char) :
    x ∈ revokeAll bl ts ↔ x ∈ bl ∨ x ∈ ts := by
  induction ts generalizing bl with
  | nil => simp [revokeAll]
  | cons t ts ih =>
      show x ∈ revokeAll (revokeToken bl t) ts ↔ _
      rw [ih, mem_revokeToken]
      simp only [List.mem_cons]
      tauto

theorem length_revokeAll (ts : List (List Char)) (hnd : ts.Nodup) :
    ∀ bl, (∀ t ∈ ts, t ∉ bl) → (revokeAll bl ts).length = bl.length + ts.length := by
  induction ts with
  | nil => intro bl _; simp [revokeAll]
  | cons t ts ih =>
      intro bl hdis
      rcases List.nodup_cons.mp hnd with ⟨hnt, hnd'⟩
      have hbl : t ∉ bl := hdis t (List.mem_cons_self t ts)
      show (revokeAll (revokeToken bl t) ts).length = _
      rw [ih hnd' (revokeToken bl t) ?_]
      · unfold revokeToken
        rw [if_neg hbl]
        simp only [List.length_cons]
        omega
      · intro u hu
        rw [mem_revokeToken]
        rintro (rfl | h)
        · exact hnt hu
        · exact hdis u (List.mem_cons_of_mem t hu) h

/-! ### Login handler (`POST /api/auth/login` in `server.js`)

The handler, from the account-lock check onward (the captcha and
user-lookup steps precede it and are independent of the lockout logic):
`isLocked` iff `locked_until` is set and `now < locked_until`; a locked
attempt answers 423 without calling `bcrypt.compare`; a failed comparison
stores `login_attempts + 1` and, only when the new count reaches
`config.maxLoginAttempts`, `locked_until = now + config.lockoutDuration`
(otherwise `locked_until` is stored as NULL); a successful comparison
resets the counter and the lock and issues a token. -/

/-- `config.maxLoginAttempts` in `server.js`. -/
def maxLoginAttempts : Nat := 5

/-- `config.lockoutDuration` in `server.js` (15 minutes, in ms). -/
def lockoutDurationMs : Nat := 15 * 60 * 1000

/-- HTTP response of one login attempt (status code, plus the issued
token on success). -/
inductive LoginResponse
  | locked (status : Nat)
  | invalidCredentials (status : Nat)
  | success (status : Nat) (token : List Char)
deriving Repr, DecidableEq

/-- Outcome of one login attempt: the HTTP response, the user row as the
handler leaves it in the database, and whether `bcrypt.compare` was
invoked. -/
structure LoginResult where
  response : LoginResponse
  user : DbUser
  comparedPassword : Bool
deriving Repr, DecidableEq

/-- Model of one `POST /api/auth/login` attempt for an existing user at
`Date.now() = nowMs`.  `passwordOk` is the value `bcrypt.compare` returns
when it is reached; `comparedPassword` records whether it was reached. -/
def loginAttempt (secret : String) (req : Req) (user : DbUser) (passwordOk : Bool)
    (nowMs : Nat) : LoginResult :=
  let isLocked : Bool :=
    match user.locked_until with
    | some l => decide (nowMs < l)
    | none => false
  if isLocked then
    { response := .locked 423, user := user, comparedPassword := false }
  else if passwordOk then
    { response := .success 200 (generateToken secret user req nowMs)
      user := { user with login_attempts := 0, locked_until := none }
      comparedPassword := true }
  else
    let newAttempts := user.login_attempts + 1
    let lockUntil : Option Nat :=
      if newAttempts ≥ maxLoginAttempts then some (nowMs + lockoutDurationMs) else none
    { response := .invalidCredentials 401
      user := { user with login_attempts := newAttempts, locked_until := lockUntil }
      comparedPassword := true }

/-- User row after a sequence of failed login attempts at the given
times (all with a wrong password). -/
def failN (secret : String) (req : Req) (user : DbUser) (times : List Nat) : DbUser :=
  times.foldl (fun u t => (loginAttempt secret req u false t).user) user

/-! ### Authentication middleware (`SessionManager.authenticate`) -/

/-- Outcome of the authentication middleware: an error response
(status and error code) or acceptance, which attaches the decoded claims
(`req.user`) and the raw token (`req.token`) to the request. -/
inductive AuthOutcome
  | reject (status : Nat) (code : String)
  | accept (user : Payload) (token : List Char)
deriving Repr, DecidableEq

/-- Bearer-token extraction of the middleware:
`const token = authHeader && authHeader.split(' ')[1]`, where a missing
header, a missing second word, or an empty (falsy) value yields no
token. -/
def extractBearer (authHeader : Option String) : Option String :=
  match authHeader with
  | none => none
  | some h =>
      if h = "" then none
      else
        match (h.splitOn " ")[1]? with
        | none => none
        | some t => if t = "" then none else some t

/-- Model of the middleware returned by `SessionManager.authenticate()`:
401 `NO_TOKEN` when extraction yields nothing, otherwise `verifyToken`;
every verification error becomes 403 `INVALID_TOKEN`. -/
def authenticate (secret : String) (strict : Bool) (bl : List (List Char))
    (authHeader : Option String) (req : Req) (now : Nat) : AuthOutcome :=
  match extractBearer authHeader with
  | none => .reject 401 "NO_TOKEN"
  | some t =>
      match (verifyToken secret strict bl t.data req now).fst with
      | .error _ => .reject 403 "INVALID_TOKEN"
      | .ok u => .accept u t.data

/-! ### Client session mirror (`scripts/auth-manager.js`)

Browser-held state: the `auth_session` record in `localStorage`, whether
the stored fingerprint matches the recomputed one, and the
`sessionStorage` flag `auth_active`.  Timer side effects are not part of
the state; the fields below are exactly what `storeSession` writes. -/

/-- `AuthManager.sessionTimeout` (30 minutes, in ms). -/
def sessionTimeoutMs : Nat := 30 * 60 * 1000

/-- The `sessionData` record built on login success. -/
structure ClientSession where
  token : List Char
  username : String
  role : String
  loginTime : Nat
  expiresAt : Nat
  csrfToken : String
deriving Repr, DecidableEq

/-- Browser storage as read by `AuthManager`. -/
structure ClientState where
  stored : Option ClientSession
  fingerprintMatches : Bool
  authActive : Bool
deriving Repr, DecidableEq

/-- Model of `AuthManager.getSession`: the stored record, unless missing
or the fingerprint mismatches (treated as tampering). -/
def getSession (st : ClientState) : Option ClientSession :=
  match st.stored with
  | none => none
  | some sd => if st.fingerprintMatches then some sd else none

/-- Model of `AuthManager.isSessionValid`: falsy token or expiry fails,
`Date.now() > expiresAt` fails, and `auth_active` must be set. -/
def isSessionValid (st : ClientState) (sd : ClientSession) (nowMs : Nat) : Bool :=
  if sd.token = [] ∨ sd.expiresAt = 0 then false
  else if sd.expiresAt < nowMs then false
  else st.authActive

/-- Model of `AuthManager.storeSession`: writes the record, a fresh
(matching) fingerprint, and sets `auth_active`. -/
def storeSession (sd : ClientSession) : ClientState :=
  { stored := some sd, fingerprintMatches := true, authActive := true }

/-- Model of `AuthManager.extendSession` at `Date.now() = nowMs`: on a
valid session, re-store it with `expiresAt = now + sessionTimeout`;
otherwise do nothing. -/
def extendSession (st : ClientState) (nowMs : Nat) : ClientState :=
  match getSession st with
  | none => st
  | some sd =>
      if isSessionValid st sd nowMs then
        storeSession { sd with expiresAt := nowMs + sessionTimeoutMs }
      else st

/-! ### Single-character tampering -/

theorem set_ne_self : ∀ (l : List Char) (i : Nat) (hi : i < l.length) (c : Char),
    c ≠ l.get ⟨i, hi⟩ → l.set i c ≠ l := by
  intro l
  induction l with
  | nil => intro i hi; exact absurd hi (Nat.not_lt_zero i)
  | cons a l ih =>
      intro i hi c hc h
      cases i with
      | zero =>
          injection h with h1 h2
          exact hc h1
      | succ n =>
          have hn : n < l.length := Nat.lt_of_succ_lt_succ hi
          injection h with h1 h2
          exact ih n hn c hc h2

/-- Changing any single character of a well-formed token string
`A ++ '.' :: (S ++ A)` (payload, separator, ideal tag) either removes the
separator entirely or makes the tag mismatch the payload. -/
theorem tamper_sig_fail (S A : List Char) (hAdot : '.' ∉ A) (hSdot : '.' ∉ S)
    (i : Nat) (c : Char) (hi : i < (A ++ '.' :: (S ++ A)).length)
    (hc : c ≠ (A ++ '.' :: (S ++ A)).get ⟨i, hi⟩) :
    splitFirst '.' ((A ++ '.' :: (S ++ A)).set i c) = none ∨
    ∃ a b, splitFirst '.' ((A ++ '.' :: (S ++ A)).set i c) = some (a, b) ∧ b ≠ S ++ a := by
  have hBdot : '.' ∉ S ++ A := by
    intro h
    rcases List.mem_append.mp h with h | h
    · exact hSdot h
    · exact hAdot h
  have hlen : (A ++ '.' :: (S ++ A)).length = A.length + ((S ++ A).length + 1) := by
    simp [List.length_append, List.length_cons]
  rcases Nat.lt_trichotomy i A.length with hiA | hiA | hiA
  · -- the changed position is inside the payload part
    have hgetA : (A ++ '.' :: (S ++ A)).get ⟨i, hi⟩ = A.get ⟨i, hiA⟩ := by
      simp only [List.get_eq_getElem]
      exact List.getElem_append_left hiA
    have hcA : c ≠ A.get ⟨i, hiA⟩ := fun h => hc (h.trans hgetA.symm)
    have hset : (A ++ '.' :: (S ++ A)).set i c = A.set i c ++ '.' :: (S ++ A) := by
      rw [List.set_append, if_pos hiA]
    by_cases hcdot : c = '.'
    · -- the new character is itself a separator: the first dot moves left
      subst hcdot
      right
      have htake : '.' ∉ A.take i := fun h => hAdot (List.take_subset i A h)
      have hsplit : A.set i '.' = A.take i ++ '.' :: A.drop (i + 1) :=
        List.set_eq_take_cons_drop '.' hiA
      refine ⟨A.take i, A.drop (i + 1) ++ '.' :: (S ++ A), ?_, ?_⟩
      · rw [hset, hsplit, List.append_assoc, List.cons_append]
        exact splitFirst_append '.' _ _ htake
      · intro heq
        have hmem : '.' ∈ S ++ A.take i := by
          rw [← heq]
          exact List.mem_append.mpr (Or.inr (List.mem_cons_self _ _))
        rcases List.mem_append.mp hmem with h | h
        · exact hSdot h
        · exact htake h
    · -- payload changed to a different non-separator character: tag mismatch
      right
      have hA'dot : '.' ∉ A.set i c := by
        intro h
        rcases List.mem_or_eq_of_mem_set h with h | h
        · exact hAdot h
        · exact hcdot h.symm
      refine ⟨A.set i c, S ++ A, ?_, ?_⟩
      · rw [hset]
        exact splitFirst_append '.' _ _ hA'dot
      · intro heq
        have hAA : A = A.set i c := List.append_cancel_left heq
        exact set_ne_self A i hiA c hcA hAA.symm
  · -- the separator itself is overwritten: no dot remains anywhere
    subst hiA
    have hgetdot : (A ++ '.' :: (S ++ A)).get ⟨A.length, hi⟩ = '.' := by
      simp only [List.get_eq_getElem]
      rw [List.getElem_append_right (le_refl A.length)]
      simp
    have hcdot : c ≠ '.' := fun h => hc (h.trans hgetdot.symm)
    left
    have hset : (A ++ '.' :: (S ++ A)).set A.length c = A ++ c :: (S ++ A) := by
      rw [List.set_append, if_neg (lt_irrefl A.length), Nat.sub_self]
      rfl
    rw [hset]
    apply splitFirst_of_not_mem
    intro h
    rcases List.mem_append.mp h with h | h
    · exact hAdot h
    · rcases List.mem_cons.mp h with h | h
      · exact hcdot h.symm
      · exact hBdot h
  · -- the changed position is inside the tag: tag mismatch
    right
    have hi2 : i < A.length + ((S ++ A).length + 1) := by rw [← hlen]; exact hi
    obtain ⟨j, rfl⟩ : ∃ j, i = A.length + (j + 1) := ⟨i - A.length - 1, by omega⟩
    have hj : j < (S ++ A).length := by omega
    have hsub : A.length + (j + 1) - A.length = j + 1 := by omega
    have hset : (A ++ '.' :: (S ++ A)).set (A.length + (j + 1)) c
        = A ++ '.' :: (S ++ A).set j c := by
      rw [List.set_append, if_neg (by omega), hsub]
      rfl
    have hgetB : (A ++ '.' :: (S ++ A)).get ⟨A.length + (j + 1), hi⟩
        = (S ++ A).get ⟨j, hj⟩ := by
      simp only [List.get_eq_getElem]
      rw [List.getElem_append_right (by omega)]
      simp only [hsub, List.getElem_cons_succ]
    have hcB : c ≠ (S ++ A).get ⟨j, hj⟩ := fun h => hc (h.trans hgetB.symm)
    refine ⟨A, (S ++ A).set j c, ?_, ?_⟩
    · rw [hset]
      exact splitFirst_append '.' _ _ hAdot
    · exact set_ne_self (S ++ A) _ hj c hcB

/-- A token with any single character changed fails `jwt.verify`. -/
theorem jwtVerify_tampered (secret : String) (p : Payload) (now : Nat) (i : Nat) (c : Char)
    (hi : i < (signToken secret p).length)
    (hc : c ≠ (signToken secret p).get ⟨i, hi⟩) :
    isOk (jwtVerify secret ((signToken secret p).set i c) now) = false := by
  have h := tamper_sig_fail (encStr secret) (encPayload p)
    (not_dot_mem_encPayload p) (not_dot_mem_encStr secret) i c hi hc
  show isOk (jwtVerify secret
    ((encPayload p ++ '.' :: (encStr secret ++ encPayload p)).set i c) now) = false
  rcases h with h | ⟨a, b, hsplit, hne⟩
  · unfold jwtVerify
    rw [h]
    rfl
  · unfold jwtVerify
    rw [hsplit]
    simp only [if_neg hne]
    rfl

/-- A token with any single character changed fails
`SessionManager.verifyToken`, whatever the registry contains. -/
theorem verifyToken_fst_tampered (secret : String) (strict : Bool) (bl : List (List Char))
    (p : Payload) (req : Req) (now : Nat) (i : Nat) (c : Char)
    (hi : i < (signToken secret p).length)
    (hc : c ≠ (signToken secret p).get ⟨i, hi⟩) :
    isOk (verifyToken secret strict bl ((signToken secret p).set i c) req now).fst = false := by
  have htam := jwtVerify_tampered secret p now i c hi hc
  unfold verifyToken
  cases hj : jwtVerify secret ((signToken secret p).set i c) now with
  | error msg => rfl
  | ok d =>
      rw [hj] at htam
      simp [isOk] at htam

/-! ### Miscellaneous helper lemmas and sample concrete inputs -/

theorem natHex_injective : Function.Injective natHex := by
  intro m n h
  have h1 := hexToNat_natHex m
  rw [h, hexToNat_natHex n] at h1
  exact (Option.some_inj.mp h1).symm

theorem dot_mem_signToken (secret : String) (p : Payload) : '.' ∈ signToken secret p := by
  unfold signToken
  exact List.mem_append.mpr (Or.inr (List.mem_cons_self _ _))

theorem signToken_ne_nil (secret : String) (p : Payload) : signToken secret p ≠ [] := by
  intro h
  have hmem := dot_mem_signToken secret p
  rw [h] at hmem
  exact List.not_mem_nil _ hmem

/-- Arbitrary distinct non-token registry entries, used to fill the
registry in overflow scenarios. -/
def fillerToken (n : Nat) : List Char := 'x' :: natHex n

theorem fillerToken_injective : Function.Injective fillerToken := by
  intro m n h
  injection h with h1 h2
  exact natHex_injective h2

theorem not_dot_mem_fillerToken (n : Nat) : '.' ∉ fillerToken n := by
  intro h
  rcases List.mem_cons.mp h with h | h
  · exact absurd h (by decide)
  · obtain ⟨d, hd, he⟩ := mem_natHex _ n h
    exact hexDigit_ne_dot d hd he.symm

theorem signToken_ne_fillerToken (secret : String) (p : Payload) (n : Nat) :
    signToken secret p ≠ fillerToken n := by
  intro h
  exact not_dot_mem_fillerToken n (h ▸ dot_mem_signToken secret p)

/-- Sample user row for concrete instantiations. -/
def sampleUser : DbUser := ⟨1, "admin", "hash", "admin", 0, none⟩

/-- Sample user row that is locked with the counter at the threshold. -/
def sampleLockedUser : DbUser := ⟨1, "admin", "hash", "admin", 5, some 1000⟩

/-- Sample request context. -/
def sampleReq : Req := ⟨"1.2.3.4", some "Mozilla"⟩

/-- Sample request context from a different client IP. -/
def sampleReq2 : Req := ⟨"5.6.7.8", some "Mozilla"⟩

/-- Sample client session mirror record for a token issued at time 0. -/
def sampleSession : ClientSession :=
  ⟨generateToken "secret" sampleUser sampleReq 0, "admin", "admin", 0, 1800000, "csrf"⟩

set_option maxRecDepth 100000

/-! ### Claim theorems -/

/-- C6: a login attempt is rejected with 423 if and only if the user's
lock-expiry is set and strictly in the future at the time of the attempt;
otherwise (including `now ≥ lock-expiry`) the attempt proceeds to the
password comparison.  Lock state is read from the user row on every
attempt; nothing unlocks proactively. -/
theorem c6_lock_evaluation (secret : String) (req : Req) (u : DbUser) (pw : Bool)
    (nowMs : Nat) :
    ((loginAttempt secret req u pw nowMs).response = .locked 423
        ↔ ∃ l, u.locked_until = some l ∧ nowMs < l)
    ∧ ((loginAttempt secret req u pw nowMs).comparedPassword = true
        ↔ ¬∃ l, u.locked_until = some l ∧ nowMs < l) := by
  unfold loginAttempt
  cases hl : u.locked_until with
  | none => cases pw <;> simp
  | some l =>
      by_cases ht : nowMs < l
      · simp [ht]
      · cases pw <;> simp [ht]

/-- C7: verification outcome is identical for any two request contexts
that differ only in client IP; the IP-consistency check can only add a
warning log line, never change the accept/reject result. -/
theorem c7_ip_mismatch_never_rejects (secret : String) (strict : Bool)
    (bl : List (List Char)) (token : List Char) (now : Nat) (ua : Option String)
    (ip1 ip2 : String) :
    (verifyToken secret strict bl token ⟨ip1, ua⟩ now).fst
      = (verifyToken secret strict bl token ⟨ip2, ua⟩ now).fst := by
  unfold verifyToken
  cases jwtVerify secret token now with
  | error msg => rfl
  | ok d =>
      by_cases hb : token ∈ bl
      · simp only [if_pos hb]
      · simp only [if_neg hb]
        by_cases h1 : strict = true ∧ d.ip ≠ ip1 <;>
          by_cases h2 : strict = true ∧ d.ip ≠ ip2
        · rw [if_pos h1, if_pos h2]
        · rw [if_pos h1, if_neg h2]
        · rw [if_neg h1, if_pos h2]
        · rw [if_neg h1, if_neg h2]

/-- C5: the authentication interceptor answers 401 `NO_TOKEN` exactly
when no bearer token can be extracted from the `Authorization` header,
and 403 `INVALID_TOKEN` exactly when a token was extracted and
verification failed, whatever the cause (bad signature, wrong
issuer/audience, expiry, or revocation). -/
theorem c5_error_taxonomy (secret : String) (strict : Bool) (bl : List (List Char))
    (h : Option String) (req : Req) (now : Nat) :
    (authenticate secret strict bl h req now = .reject 401 "NO_TOKEN"
        ↔ extractBearer h = none)
    ∧ (authenticate secret strict bl h req now = .reject 403 "INVALID_TOKEN"
        ↔ ∃ t, extractBearer h = some t
            ∧ isOk (verifyToken secret strict bl t.data req now).fst = false) := by
  unfold authenticate
  cases he : extractBearer h with
  | none => simp
  | some t =>
      cases hv : (verifyToken secret strict bl t.data req now).fst with
      | error msg => simp [hv, isOk]
      | ok d => simp [hv, isOk]

/-- C10: expiry of a lock does not reset the failed-attempt counter (only
a successful comparison resets it): with the counter at 5 and the lock
expired, the next failed attempt is compared, answers 401, raises the
counter to 6, and re-locks for another 15 minutes; a successful attempt
instead resets the counter and clears the lock. -/
theorem c10_counter_survives_lock_expiry (secret : String) (req : Req) (u : DbUser)
    (l nowMs : Nat) (h5 : u.login_attempts = 5) (hl : u.locked_until = some l)
    (hexp : l ≤ nowMs) :
    (loginAttempt secret req u false nowMs).comparedPassword = true
    ∧ (loginAttempt secret req u false nowMs).response = .invalidCredentials 401
    ∧ (loginAttempt secret req u false nowMs).user.login_attempts = 6
    ∧ (loginAttempt secret req u false nowMs).user.locked_until
        = some (nowMs + lockoutDurationMs)
    ∧ (loginAttempt secret req u true nowMs).user.login_attempts = 0
    ∧ (loginAttempt secret req u true nowMs).user.locked_until = none := by
  have hnot : ¬ nowMs < l := by omega
  simp [loginAttempt, h5, hl, hnot, maxLoginAttempts, lockoutDurationMs]

/-- Witness for C10 at concrete inputs. -/
theorem c10_counter_survives_lock_expiry_witness :
    (sampleLockedUser.login_attempts = 5 ∧ sampleLockedUser.locked_until = some 1000
      ∧ 1000 ≤ 2000)
    ∧ ((loginAttempt "secret" sampleReq sampleLockedUser false 2000).comparedPassword = true
      ∧ (loginAttempt "secret" sampleReq sampleLockedUser false 2000).response
          = .invalidCredentials 401
      ∧ (loginAttempt "secret" sampleReq sampleLockedUser false 2000).user.login_attempts = 6
      ∧ (loginAttempt "secret" sampleReq sampleLockedUser false 2000).user.locked_until
          = some (2000 + lockoutDurationMs)
      ∧ (loginAttempt "secret" sampleReq sampleLockedUser true 2000).user.login_attempts = 0
      ∧ (loginAttempt "secret" sampleReq sampleLockedUser true 2000).user.locked_until
          = none) :=
  ⟨⟨rfl, rfl, by omega⟩,
   c10_counter_survives_lock_expiry "secret" sampleReq sampleLockedUser 1000 2000
     rfl rfl (by omega)⟩

/-- C2: starting unlocked with a zero counter, four failed comparisons
leave the user unlocked (counter 4), the fifth comparison is still
performed and locks the account with lock-expiry = time of the fifth
failure + 15 minutes, and a sixth attempt made while the lock is active
is rejected with 423 without any password comparison (whatever the
submitted password would have compared to). -/
theorem c2_lockout_threshold (secret : String) (req : Req) (u : DbUser)
    (h0 : u.login_attempts = 0) (hl : u.locked_until = none)
    (t1 t2 t3 t4 t5 t6 : Nat) (pw6 : Bool)
    (h6 : t6 < t5 + lockoutDurationMs) :
    (failN secret req u [t1, t2, t3, t4]).login_attempts = 4
    ∧ (failN secret req u [t1, t2, t3, t4]).locked_until = none
    ∧ (loginAttempt secret req (failN secret req u [t1, t2, t3, t4]) false t5).comparedPassword
        = true
    ∧ (failN secret req u [t1, t2, t3, t4, t5]).login_attempts = 5
    ∧ (failN secret req u [t1, t2, t3, t4, t5]).locked_until = some (t5 + lockoutDurationMs)
    ∧ (loginAttempt secret req (failN secret req u [t1, t2, t3, t4, t5]) pw6 t6).response
        = .locked 423
    ∧ (loginAttempt secret req (failN secret req u [t1, t2, t3, t4, t5]) pw6 t6).comparedPassword
        = false := by
  have s1 : (loginAttempt secret req u false t1).user
      = { u with login_attempts := 1, locked_until := none } := by
    simp [loginAttempt, h0, hl, maxLoginAttempts]
  have step : ∀ (v : DbUser) (k t : Nat), v.login_attempts = k → v.locked_until = none →
      k + 1 < 5 →
      (loginAttempt secret req v false t).user
        = { v with login_attempts := k + 1, locked_until := none } := by
    intro v k t hk hv hk5
    simp [loginAttempt, hk, hv, maxLoginAttempts, Nat.not_le.mpr hk5]
  have h4 : failN secret req u [t1, t2, t3, t4]
      = { u with login_attempts := 4, locked_until := none } := by
    show (loginAttempt secret req (loginAttempt secret req (loginAttempt secret req
      (loginAttempt secret req u false t1).user false t2).user false t3).user false t4).user
      = _
    rw [step u 0 t1 h0 hl (by norm_num), step _ 1 t2 rfl rfl (by norm_num),
        step _ 2 t3 rfl rfl (by norm_num), step _ 3 t4 rfl rfl (by norm_num)]
  have h5step : loginAttempt secret req { u with login_attempts := 4, locked_until := none }
      false t5
      = { response := .invalidCredentials 401,
          user := { u with login_attempts := 5, locked_until := some (t5 + lockoutDurationMs) },
          comparedPassword := true } := by
    simp [loginAttempt, maxLoginAttempts, lockoutDurationMs]
  have h5 : failN secret req u [t1, t2, t3, t4, t5]
      = { u with login_attempts := 5, locked_until := some (t5 + lockoutDurationMs) } := by
    show (loginAttempt secret req (failN secret req u [t1, t2, t3, t4]) false t5).user = _
    rw [h4, h5step]
  have h6step : loginAttempt secret req
      { u with login_attempts := 5, locked_until := some (t5 + lockoutDurationMs) } pw6 t6
      = { response := .locked 423,
          user := { u with login_attempts := 5, locked_until := some (t5 + lockoutDurationMs) },
          comparedPassword := false } := by
    simp [loginAttempt, h6]
  refine ⟨?_, ?_, ?_, ?_, ?_, ?_, ?_⟩
  · rw [h4]
  · rw [h4]
  · rw [h4, h5step]
  · rw [h5]
  · rw [h5]
  · rw [h5, h6step]
  · rw [h5, h6step]

/-- Witness for C2 at concrete inputs (the sixth attempt even submits the
correct password; it is rejected unseen). -/
theorem c2_lockout_threshold_witness :
    (sampleUser.login_attempts = 0 ∧ sampleUser.locked_until = none
      ∧ 60 < 50 + lockoutDurationMs)
    ∧ ((failN "secret" sampleReq sampleUser [10, 20, 30, 40]).login_attempts = 4
      ∧ (failN "secret" sampleReq sampleUser [10, 20, 30, 40]).locked_until = none
      ∧ (loginAttempt "secret" sampleReq
          (failN "secret" sampleReq sampleUser [10, 20, 30, 40]) false 50).comparedPassword
          = true
      ∧ (failN "secret" sampleReq sampleUser [10, 20, 30, 40, 50]).login_attempts = 5
      ∧ (failN "secret" sampleReq sampleUser [10, 20, 30, 40, 50]).locked_until
          = some (50 + lockoutDurationMs)
      ∧ (loginAttempt "secret" sampleReq
          (failN "secret" sampleReq sampleUser [10, 20, 30, 40, 50]) true 60).response
          = .locked 423
      ∧ (loginAttempt "secret" sampleReq
          (failN "secret" sampleReq sampleUser [10, 20, 30, 40, 50]) true 60).comparedPassword
          = false) :=
  ⟨⟨rfl, rfl, by norm_num [lockoutDurationMs]⟩,
   c2_lockout_threshold "secret" sampleReq sampleUser rfl rfl 10 20 30 40 50 60 true
     (by norm_num [lockoutDurationMs])⟩

/-- C8: revoking a token that is already in the registry is a no-op on
the registry (and `Set.add` never errors), so Verify's outcome for that
token is unchanged; for an unexpired issued token that outcome is the
`Token has been revoked` failure, after one revocation and equally after
a second one. -/
theorem c8_idempotent_revocation (secret : String) (strict : Bool) (bl : List (List Char))
    (u : DbUser) (req req2 : Req) (genMs now : Nat)
    (hnow : now < genMs / 1000 + 1800) :
    revokeToken (revokeToken bl (generateToken secret u req genMs))
        (generateToken secret u req genMs)
      = revokeToken bl (generateToken secret u req genMs)
    ∧ (verifyToken secret strict (revokeToken bl (generateToken secret u req genMs))
        (generateToken secret u req genMs) req2 now).fst
      = .error "Token validation failed: Token has been revoked"
    ∧ (verifyToken secret strict
        (revokeToken (revokeToken bl (generateToken secret u req genMs))
          (generateToken secret u req genMs))
        (generateToken secret u req genMs) req2 now).fst
      = .error "Token validation failed: Token has been revoked" := by
  have hmem : generateToken secret u req genMs
      ∈ revokeToken bl (generateToken secret u req genMs) :=
    (mem_revokeToken bl _ _).mpr (Or.inl rfl)
  have hidem : revokeToken (revokeToken bl (generateToken secret u req genMs))
      (generateToken secret u req genMs)
      = revokeToken bl (generateToken secret u req genMs) := by
    unfold revokeToken
    rw [if_pos]
    by_cases h : generateToken secret u req genMs ∈ bl
    · rw [if_pos h]; exact h
    · rw [if_neg h]; exact List.mem_cons_self _ _
  have hrev : (verifyToken secret strict (revokeToken bl (generateToken secret u req genMs))
      (generateToken secret u req genMs) req2 now).fst
      = .error "Token validation failed: Token has been revoked" := by
    show (verifyToken secret strict (revokeToken bl (generateToken secret u req genMs))
      (signToken secret (mkPayload u req genMs)) req2 now).fst = _
    exact verifyToken_fst_revoked secret strict _ (mkPayload u req genMs) req2 now
      hnow rfl rfl hmem
  refine ⟨hidem, hrev, ?_⟩
  rw [hidem]
  exact hrev

/-- Witness for C8 at concrete inputs. -/
theorem c8_idempotent_revocation_witness :
    ((100 : Nat) < 0 / 1000 + 1800)
    ∧ (revokeToken (revokeToken [] (generateToken "secret" sampleUser sampleReq 0))
          (generateToken "secret" sampleUser sampleReq 0)
        = revokeToken [] (generateToken "secret" sampleUser sampleReq 0)
      ∧ (verifyToken "secret" false
          (revokeToken [] (generateToken "secret" sampleUser sampleReq 0))
          (generateToken "secret" sampleUser sampleReq 0) sampleReq2 100).fst
        = .error "Token validation failed: Token has been revoked"
      ∧ (verifyToken "secret" false
          (revokeToken (revokeToken [] (generateToken "secret" sampleUser sampleReq 0))
            (generateToken "secret" sampleUser sampleReq 0))
          (generateToken "secret" sampleUser sampleReq 0) sampleReq2 100).fst
        = .error "Token validation failed: Token has been revoked") :=
  ⟨by norm_num,
   c8_idempotent_revocation "secret" false [] sampleUser sampleReq sampleReq2 0 100
     (by norm_num)⟩

/-- C3 counterexample: a token issued at time 0 (so `exp` = 1800) and
placed in the Revocation Registry fails Verify at issued-at + 30min − 1s
(clock 1799), so success at that boundary is not independent of the
registry state. -/
theorem c3_counterexample :
    isOk (verifyToken "secret" false
        [generateToken "secret" sampleUser sampleReq 0]
        (generateToken "secret" sampleUser sampleReq 0) sampleReq 1799).fst = false := by
  have h := verifyToken_fst_revoked "secret" false
      [generateToken "secret" sampleUser sampleReq 0]
      (mkPayload sampleUser sampleReq 0) sampleReq 1799
      (by decide) rfl rfl (List.mem_singleton.mpr rfl)
  show isOk (verifyToken "secret" false
      [generateToken "secret" sampleUser sampleReq 0]
      (signToken "secret" (mkPayload sampleUser sampleReq 0)) sampleReq 1799).fst = false
  rw [h]
  rfl

/-- C3 (amended): every issued token's `exp` claim equals issuance time
plus the fixed 30-minute lifetime; a token *not in the Revocation
Registry* verified at issued-at + 30min − 1s succeeds, and at
issued-at + 30min + 1s it fails for every registry state. -/
theorem c3_expiry_boundary (secret : String) (strict : Bool) (u : DbUser)
    (req req2 : Req) (nowMs : Nat) (bl blAny : List (List Char))
    (hbl : generateToken secret u req nowMs ∉ bl) :
    (mkPayload u req nowMs).exp = nowMs / 1000 + 1800
    ∧ (verifyToken secret strict bl (generateToken secret u req nowMs) req2
        (nowMs / 1000 + 1800 - 1)).fst = .ok (mkPayload u req nowMs)
    ∧ isOk (verifyToken secret strict blAny (generateToken secret u req nowMs) req2
        (nowMs / 1000 + 1800 + 1)).fst = false := by
  refine ⟨rfl, ?_, ?_⟩
  · have hexp : nowMs / 1000 + 1800 - 1 < (mkPayload u req nowMs).exp := by
      show nowMs / 1000 + 1800 - 1 < nowMs / 1000 + 1800
      omega
    show (verifyToken secret strict bl (signToken secret (mkPayload u req nowMs)) req2
      (nowMs / 1000 + 1800 - 1)).fst = .ok (mkPayload u req nowMs)
    exact verifyToken_fst_ok secret strict bl _ req2 _ hexp rfl rfl hbl
  · have hexp : (mkPayload u req nowMs).exp ≤ nowMs / 1000 + 1800 + 1 := by
      show nowMs / 1000 + 1800 ≤ nowMs / 1000 + 1800 + 1
      omega
    have h := verifyToken_fst_expired secret strict blAny (mkPayload u req nowMs) req2
      (nowMs / 1000 + 1800 + 1) hexp
    show isOk (verifyToken secret strict blAny (signToken secret (mkPayload u req nowMs)) req2
      (nowMs / 1000 + 1800 + 1)).fst = false
    rw [h]
    rfl

/-- Witness for C3 (amended) at concrete inputs; the failure side's
registry even contains the token itself. -/
theorem c3_expiry_boundary_witness :
    (generateToken "secret" sampleUser sampleReq 0 ∉ ([] : List (List Char)))
    ∧ ((mkPayload sampleUser sampleReq 0).exp = 0 / 1000 + 1800
      ∧ (verifyToken "secret" false [] (generateToken "secret" sampleUser sampleReq 0)
          sampleReq2 (0 / 1000 + 1800 - 1)).fst = .ok (mkPayload sampleUser sampleReq 0)
      ∧ isOk (verifyToken "secret" false [generateToken "secret" sampleUser sampleReq 0]
          (generateToken "secret" sampleUser sampleReq 0)
          sampleReq2 (0 / 1000 + 1800 + 1)).fst = false) :=
  ⟨List.not_mem_nil _,
   c3_expiry_boundary "secret" false sampleUser sampleReq sampleReq2 0 []
     [generateToken "secret" sampleUser sampleReq 0] (List.not_mem_nil _)⟩

/-- C4: for every user record and request context, verifying the freshly
issued (unexpired, unrevoked) token returns claims whose username and
role exactly match the issuing user, and altering any single character of
the token string makes Verify fail. -/
theorem c4_round_trip_and_tamper (secret : String) (strict : Bool) (bl : List (List Char))
    (u : DbUser) (req req2 : Req) (genMs now : Nat) (i : Nat) (c : Char)
    (hnow : now < genMs / 1000 + 1800)
    (hbl : generateToken secret u req genMs ∉ bl)
    (hi : i < (generateToken secret u req genMs).length)
    (hc : c ≠ (generateToken secret u req genMs).get ⟨i, hi⟩) :
    (verifyToken secret strict bl (generateToken secret u req genMs) req2 now).fst
      = .ok (mkPayload u req genMs)
    ∧ (mkPayload u req genMs).username = u.username
    ∧ (mkPayload u req genMs).role = u.role
    ∧ isOk (verifyToken secret strict bl
        ((generateToken secret u req genMs).set i c) req2 now).fst = false := by
  refine ⟨?_, rfl, rfl, ?_⟩
  · show (verifyToken secret strict bl (signToken secret (mkPayload u req genMs)) req2
      now).fst = .ok (mkPayload u req genMs)
    exact verifyToken_fst_ok secret strict bl _ req2 now hnow rfl rfl hbl
  · show isOk (verifyToken secret strict bl
      ((signToken secret (mkPayload u req genMs)).set i c) req2 now).fst = false
    exact verifyToken_fst_tampered secret strict bl _ req2 now i c hi hc

/-- Witness for C4 at concrete inputs (position 0 of the token is changed
into a `'.'`; the verifying request comes from a different IP with the
strict-IP flag set, which still does not block). -/
theorem c4_round_trip_and_tamper_witness :
    ((0 : Nat) < 0 / 1000 + 1800
      ∧ generateToken "secret" sampleUser sampleReq 0 ∉ ([] : List (List Char))
      ∧ 0 < (generateToken "secret" sampleUser sampleReq 0).length
      ∧ '.' ≠ (generateToken "secret" sampleUser sampleReq 0).get ⟨0, by decide⟩)
    ∧ ((verifyToken "secret" true [] (generateToken "secret" sampleUser sampleReq 0)
          sampleReq2 0).fst = .ok (mkPayload sampleUser sampleReq 0)
      ∧ (mkPayload sampleUser sampleReq 0).username = sampleUser.username
      ∧ (mkPayload sampleUser sampleReq 0).role = sampleUser.role
      ∧ isOk (verifyToken "secret" true []
          ((generateToken "secret" sampleUser sampleReq 0).set 0 '.') sampleReq2 0).fst
          = false) :=
  ⟨⟨by norm_num, List.not_mem_nil _, by decide, by decide⟩,
   c4_round_trip_and_tamper "secret" true [] sampleUser sampleReq sampleReq2 0 0 0 '.'
     (by norm_num) (List.not_mem_nil _) (by decide) (by decide)⟩

/-- C1 (amended): the registry-overflow policy as implemented by
`cleanupBlacklist`: once 1001 distinct tokens have been revoked the
registry's size exceeds 1000, so *running the cleanup* empties the whole
set, and a token revoked early in the sequence that is still within its
own 30-minute expiry window — which Verify rejected while it was
registered — passes Verify again afterwards.  (The repository itself
never invokes `cleanupBlacklist`; see the counterexample.) -/
theorem c1_registry_overflow (secret : String) (strict : Bool) (u : DbUser)
    (req req2 : Req) (genMs now : Nat) (ts : List (List Char))
    (hnd : ts.Nodup) (hlen : ts.length = 1001)
    (hmem : generateToken secret u req genMs ∈ ts)
    (hnow : now < genMs / 1000 + 1800) :
    isOk (verifyToken secret strict (revokeAll [] ts)
        (generateToken secret u req genMs) req2 now).fst = false
    ∧ (revokeAll [] ts).length > 1000
    ∧ cleanupBlacklist (revokeAll [] ts) = []
    ∧ (verifyToken secret strict (cleanupBlacklist (revokeAll [] ts))
        (generateToken secret u req genMs) req2 now).fst
        = .ok (mkPayload u req genMs) := by
  have hmem2 : generateToken secret u req genMs ∈ revokeAll [] ts :=
    (mem_revokeAll [] ts _).mpr (Or.inr hmem)
  have hlen2 : (revokeAll [] ts).length = 1001 := by
    rw [length_revokeAll ts hnd [] (fun t _ => List.not_mem_nil t)]
    simp [hlen]
  have hgt : (revokeAll [] ts).length > 1000 := by
    rw [hlen2]
    norm_num
  have hclean : cleanupBlacklist (revokeAll [] ts) = [] := by
    unfold cleanupBlacklist
    rw [if_pos hgt]
  refine ⟨?_, hgt, hclean, ?_⟩
  · have h := verifyToken_fst_revoked secret strict (revokeAll [] ts)
      (mkPayload u req genMs) req2 now hnow rfl rfl hmem2
    show isOk (verifyToken secret strict (revokeAll [] ts)
      (signToken secret (mkPayload u req genMs)) req2 now).fst = false
    rw [h]
    rfl
  · rw [hclean]
    show (verifyToken secret strict [] (signToken secret (mkPayload u req genMs)) req2
      now).fst = .ok (mkPayload u req genMs)
    exact verifyToken_fst_ok secret strict [] _ req2 now hnow rfl rfl (List.not_mem_nil _)

/-- Witness for C1 at concrete inputs: the issued token plus 1000
distinct filler entries. -/
theorem c1_registry_overflow_witness :
    ((generateToken "secret" sampleUser sampleReq 0
        :: (List.range 1000).map fillerToken).Nodup
      ∧ (generateToken "secret" sampleUser sampleReq 0
          :: (List.range 1000).map fillerToken).length = 1001
      ∧ generateToken "secret" sampleUser sampleReq 0
          ∈ generateToken "secret" sampleUser sampleReq 0
            :: (List.range 1000).map fillerToken
      ∧ (0 : Nat) < 0 / 1000 + 1800)
    ∧ (isOk (verifyToken "secret" false
          (revokeAll [] (generateToken "secret" sampleUser sampleReq 0
            :: (List.range 1000).map fillerToken))
          (generateToken "secret" sampleUser sampleReq 0) sampleReq2 0).fst = false
      ∧ (revokeAll [] (generateToken "secret" sampleUser sampleReq 0
          :: (List.range 1000).map fillerToken)).length > 1000
      ∧ cleanupBlacklist (revokeAll [] (generateToken "secret" sampleUser sampleReq 0
          :: (List.range 1000).map fillerToken)) = []
      ∧ (verifyToken "secret" false
          (cleanupBlacklist (revokeAll [] (generateToken "secret" sampleUser sampleReq 0
            :: (List.range 1000).map fillerToken)))
          (generateToken "secret" sampleUser sampleReq 0) sampleReq2 0).fst
          = .ok (mkPayload sampleUser sampleReq 0)) := by
  have hnd : (generateToken "secret" sampleUser sampleReq 0
      :: (List.range 1000).map fillerToken).Nodup := by
    rw [List.nodup_cons]
    constructor
    · intro h
      obtain ⟨n, _, he⟩ := List.mem_map.mp h
      exact signToken_ne_fillerToken "secret" (mkPayload sampleUser sampleReq 0) n he.symm
    · exact List.Nodup.map fillerToken_injective (List.nodup_range 1000)
  have hlen : (generateToken "secret" sampleUser sampleReq 0
      :: (List.range 1000).map fillerToken).length = 1001 := by
    simp
  have hmem : generateToken "secret" sampleUser sampleReq 0
      ∈ generateToken "secret" sampleUser sampleReq 0
        :: (List.range 1000).map fillerToken := List.mem_cons_self _ _
  exact ⟨⟨hnd, hlen, hmem, by norm_num⟩,
    c1_registry_overflow "secret" false sampleUser sampleReq sampleReq2 0 0
      (generateToken "secret" sampleUser sampleReq 0 :: (List.range 1000).map fillerToken)
      hnd hlen hmem (by norm_num)⟩

/-- C1 counterexample: the repository's only registry-writing operation
is `revokeToken` (called by the logout handler); nothing ever invokes
`cleanupBlacklist`.  After inserting 1001 distinct revoked tokens the
registry therefore still holds all 1001 entries — its size exceeds 1000
yet the set is not emptied — and the early-revoked token, still within
its 30-minute expiry window (clock 1799 < 1800), still fails Verify
rather than passing it again. -/
theorem c1_counterexample :
    (revokeAll [] (generateToken "secret" sampleUser sampleReq 0
        :: (List.range 1000).map fillerToken)).length = 1001
    ∧ revokeAll [] (generateToken "secret" sampleUser sampleReq 0
        :: (List.range 1000).map fillerToken) ≠ []
    ∧ isOk (verifyToken "secret" false
        (revokeAll [] (generateToken "secret" sampleUser sampleReq 0
          :: (List.range 1000).map fillerToken))
        (generateToken "secret" sampleUser sampleReq 0) sampleReq 1799).fst = false := by
  have hnd : (generateToken "secret" sampleUser sampleReq 0
      :: (List.range 1000).map fillerToken).Nodup := by
    rw [List.nodup_cons]
    constructor
    · intro h
      obtain ⟨n, _, he⟩ := List.mem_map.mp h
      exact signToken_ne_fillerToken "secret" (mkPayload sampleUser sampleReq 0) n he.symm
    · exact List.Nodup.map fillerToken_injective (List.nodup_range 1000)
  have hlen : (revokeAll [] (generateToken "secret" sampleUser sampleReq 0
      :: (List.range 1000).map fillerToken)).length = 1001 := by
    rw [length_revokeAll _ hnd [] (fun t _ => List.not_mem_nil t)]
    simp
  have hmem : generateToken "secret" sampleUser sampleReq 0
      ∈ revokeAll [] (generateToken "secret" sampleUser sampleReq 0
          :: (List.range 1000).map fillerToken) :=
    (mem_revokeAll _ _ _).mpr (Or.inr (List.mem_cons_self _ _))
  refine ⟨hlen, ?_, ?_⟩
  · intro h
    rw [h] at hlen
    exact absurd hlen (by norm_num)
  · have h := verifyToken_fst_revoked "secret" false _
      (mkPayload sampleUser sampleReq 0) sampleReq 1799 (by decide) rfl rfl hmem
    show isOk (verifyToken "secret" false
      (revokeAll [] (generateToken "secret" sampleUser sampleReq 0
        :: (List.range 1000).map fillerToken))
      (signToken "secret" (mkPayload sampleUser sampleReq 0)) sampleReq 1799).fst = false
    rw [h]
    rfl

/-- C9: a user-activity extension on a valid client session rewrites only
the mirror's client-computed `expiresAt` (to now + 30 minutes, via a
re-store of the record); the stored token string and every other field
are unchanged, the mirror then reports the session as fresh, yet the
server still rejects that same token at any time from `iat` + 30 minutes
on. -/
theorem c9_client_extension_asymmetry (st : ClientState) (sd : ClientSession)
    (secret : String) (strict : Bool) (bl : List (List Char)) (u : DbUser)
    (req req2 : Req) (genMs nowMs now2 : Nat)
    (hget : getSession st = some sd)
    (hvalid : isSessionValid st sd nowMs = true)
    (htok : sd.token = generateToken secret u req genMs)
    (hnow2 : genMs / 1000 + 1800 ≤ now2) :
    extendSession st nowMs = storeSession { sd with expiresAt := nowMs + sessionTimeoutMs }
    ∧ ({ sd with expiresAt := nowMs + sessionTimeoutMs } : ClientSession).token = sd.token
    ∧ ({ sd with expiresAt := nowMs + sessionTimeoutMs } : ClientSession).username
        = sd.username
    ∧ ({ sd with expiresAt := nowMs + sessionTimeoutMs } : ClientSession).role = sd.role
    ∧ ({ sd with expiresAt := nowMs + sessionTimeoutMs } : ClientSession).loginTime
        = sd.loginTime
    ∧ isSessionValid (extendSession st nowMs)
        { sd with expiresAt := nowMs + sessionTimeoutMs } nowMs = true
    ∧ isOk (verifyToken secret strict bl sd.token req2 now2).fst = false := by
  have htokne : sd.token ≠ [] := by
    rw [htok]
    exact signToken_ne_nil secret (mkPayload u req genMs)
  have hext : extendSession st nowMs
      = storeSession { sd with expiresAt := nowMs + sessionTimeoutMs } := by
    unfold extendSession
    simp only [hget, hvalid, if_true]
  have h1 : ¬(sd.token = [] ∨ nowMs + sessionTimeoutMs = 0) := by
    rintro (h | h)
    · exact htokne h
    · unfold sessionTimeoutMs at h
      omega
  have h2 : ¬(nowMs + sessionTimeoutMs < nowMs) := by
    unfold sessionTimeoutMs
    omega
  have hval2 : isSessionValid (extendSession st nowMs)
      { sd with expiresAt := nowMs + sessionTimeoutMs } nowMs = true := by
    rw [hext]
    unfold isSessionValid
    rw [if_neg h1, if_neg h2]
    rfl
  have hserver : isOk (verifyToken secret strict bl sd.token req2 now2).fst = false := by
    rw [htok]
    have hexp : (mkPayload u req genMs).exp ≤ now2 := by
      show genMs / 1000 + 1800 ≤ now2
      exact hnow2
    have h := verifyToken_fst_expired secret strict bl (mkPayload u req genMs) req2 now2 hexp
    show isOk (verifyToken secret strict bl (signToken secret (mkPayload u req genMs))
      req2 now2).fst = false
    rw [h]
    rfl
  exact ⟨hext, rfl, rfl, rfl, rfl, hval2, hserver⟩

/-- Witness for C9 at concrete inputs: the session's token was issued at
time 0, activity happens at 500 ms, the server is consulted at 1800 s. -/
theorem c9_client_extension_asymmetry_witness :
    (getSession (storeSession sampleSession) = some sampleSession
      ∧ isSessionValid (storeSession sampleSession) sampleSession 500 = true
      ∧ sampleSession.token = generateToken "secret" sampleUser sampleReq 0
      ∧ 0 / 1000 + 1800 ≤ 1800)
    ∧ (extendSession (storeSession sampleSession) 500
        = storeSession { sampleSession with expiresAt := 500 + sessionTimeoutMs }
      ∧ ({ sampleSession with expiresAt := 500 + sessionTimeoutMs } : ClientSession).token
          = sampleSession.token
      ∧ ({ sampleSession with expiresAt := 500 + sessionTimeoutMs } : ClientSession).username
          = sampleSession.username
      ∧ ({ sampleSession with expiresAt := 500 + sessionTimeoutMs } : ClientSession).role
          = sampleSession.role
      ∧ ({ sampleSession with expiresAt := 500 + sessionTimeoutMs } : ClientSession).loginTime
          = sampleSession.loginTime
      ∧ isSessionValid (extendSession (storeSession sampleSession) 500)
          { sampleSession with expiresAt := 500 + sessionTimeoutMs } 500 = true
      ∧ isOk (verifyToken "secret" false [] sampleSession.token sampleReq2 1800).fst
          = false) :=
  ⟨⟨rfl, by decide, rfl, by norm_num⟩,
   c9_client_extension_asymmetry (storeSession sampleSession) sampleSession
     "secret" false [] sampleUser sampleReq sampleReq2 0 500 1800
     rfl (by decide) rfl (by norm_num)⟩

end BlogAuth
